import Mathlib

/-!
Shallow embedding of the tlsping measurement engine (package `tlsping`,
file `tlsping.go`) and proofs of specification claims about it.

Network effects (DNS lookup, TCP/TLS dialing, wall-clock timing, and the
arrival order of worker results on the result channel) are modelled by an
oracle structure `Network`.  All repository functions (`Ping`,
`resolveAddr`, `timeit`) become pure Lean functions over that oracle.
Durations are modelled as rationals.
-/

namespace Tlsping

/-- Error values produced by the network layer.  The Go code works with the
opaque `error` interface; the spec classifies errors into kinds
(address-format, resolution, connect, TLS handshake), which we reflect as
constructors.  `indexOutOfRange` models the run-time panic Go would raise at
`addrs[0]` were `LookupHost` ever to return an empty list with a nil error. -/
inductive Err where
  | addrFormat (msg : String)
  | resolution (msg : String)
  | connect (msg : String)
  | tlsHandshake (msg : String)
  | indexOutOfRange
deriving DecidableEq

/-- Opaque model of `*x509.CertPool`. -/
structure CertPool where
  certs : List String
deriving DecidableEq

/-- `Config` from `tlsping.go`: how to time the TLS connection. -/
structure Config where
  avoidTLSHandshake : Bool
  insecureSkipVerify : Bool
  rootCAs : Option CertPool
  count : Int
  ip : String
deriving DecidableEq

/-- The dial strategy closed over by `Ping`: either a plain TCP dial of the
target, or a TLS dial carrying the `tls.Config` data (server name,
`InsecureSkipVerify`, root CAs) taken from the measurement configuration. -/
inductive DialStrategy where
  | tcp (target : String)
  | tls (target : String) (serverName : String)
      (insecureSkipVerify : Bool) (rootCAs : Option CertPool)
deriving DecidableEq

/-- Oracle for all observable network behaviour during one run.
`splitHostPort` and `lookupHost` model the Go standard library calls of the
same names; `probe` gives the outcome of the 3-second reachability dial used
by `resolveAddr`; `dial i` gives the outcome of worker `i`'s timed dial under
a given strategy, with `dialStart`/`dialEnd` the instants recorded by
`timeit` around it; `arrival n` is the order (a list of worker indices) in
which the `n` workers' outcomes appear on the result channel. -/
structure Network where
  splitHostPort : String → Except Err (String × String)
  lookupHost : String → Except Err (List String)
  probe : String → Option Err
  dial : DialStrategy → Nat → Option Err
  dialStart : DialStrategy → Nat → ℚ
  dialEnd : DialStrategy → Nat → ℚ
  arrival : Nat → List Nat

/-- `net.JoinHostPort`: brackets the host when it contains a colon. -/
def joinHostPort (host port : String) : String :=
  if host.contains ':' then "[" ++ host ++ "]:" ++ port else host ++ ":" ++ port

/-- `resolveAddr` from `tlsping.go`: split the address, default an empty
host to `"localhost"`, look the host up, and return the first candidate that
accepts a short TCP probe; if no candidate accepts, return the first
candidate anyway. -/
def resolveAddr (net : Network) (addr : String) :
    Except Err (String × String × String) :=
  match net.splitHostPort addr with
  | .error e => .error e
  | .ok (host₀, port) =>
    let host := if host₀.length = 0 then "localhost" else host₀
    match net.lookupHost host with
    | .error e => .error e
    | .ok addrs =>
      match addrs.find? (fun a => (net.probe (joinHostPort a port)).isNone) with
      | some a => .ok (host, a, port)
      | none =>
        match addrs with
        | [] => .error Err.indexOutOfRange
        | a :: _ => .ok (host, a, port)

/-- `timeit` from `tlsping.go`.  The operation's outcome and the two
instants recorded around it are supplied by the oracle; on failure the
function returns a zero duration with the error, on success the elapsed
time `endT - startT`. -/
def timeit (fres : Option Err) (startT endT : ℚ) : ℚ × Option Err :=
  match fres with
  | some e => (0, some e)
  | none => (endT - startT, none)

/-- `connectDuration` from `tlsping.go`. -/
structure connectDuration where
  seconds : ℚ
  err : Option Err
deriving DecidableEq

/-- Modelled from the spec: the four summary statistics (file `results.go`
of the repository, holding `summarize` and the statistics fields of
`PingResult`, is not part of the sources).  The population standard
deviation is the square root of `variance`; we carry the variance, which
determines it. -/
structure Summary where
  min : ℚ
  max : ℚ
  avg : ℚ
  variance : ℚ
deriving DecidableEq

/-- Modelled from the spec: `summarize` reduces a non-empty sequence of
durations to minimum, maximum, arithmetic mean and population variance
(sum of squared deviations divided by N).  Its value on the empty list is
irrelevant: the spec leaves it undefined and the callers never summarize
after a failure. -/
def summarize (l : List ℚ) : Summary :=
  let avg := l.sum / l.length
  { min := l.minimum.untop' 0
    max := l.maximum.unbot' 0
    avg := avg
    variance := (l.map (fun x => (x - avg) ^ 2)).sum / l.length }

/-- Modelled from the spec: the measurement result.  `summary` is `none`
until `setSummaryStats` runs; the statistics fields of the Go struct are
gathered in `Summary`. -/
structure PingResult where
  host : String := ""
  ipAddr : String := ""
  address : String := ""
  summary : Option Summary := none
deriving DecidableEq

/-- The defaulting performed at the top of `Ping`: a zero `Count` is
replaced by 1.  This is the only write `Ping` performs on the
configuration. -/
def pingConfigUpdate (config : Config) : Config :=
  if config.count = 0 then { config with count := 1 } else config

/-- Number of workers launched by `Ping`'s loop
`for i := 0; i < config.Count; i++` after the defaulting: the
loop runs `max 0 count` times. -/
def effectiveAttempts (config : Config) : Nat :=
  (pingConfigUpdate config).count.toNat

/-- The dial strategy `Ping` selects: plain TCP when `AvoidTLSHandshake`
is set, otherwise TLS with server name `host` and the configured
verification policy and roots. -/
def strategyOf (config : Config) (host target : String) : DialStrategy :=
  if config.avoidTLSHandshake then .tcp target
  else .tls target host config.insecureSkipVerify config.rootCAs

/-- One worker's contribution to the result channel: `timeit` applied to
its dial outcome and recorded instants. -/
def attemptOutcome (net : Network) (s : DialStrategy) (i : Nat) : connectDuration :=
  let r := timeit (net.dial s i) (net.dialStart s i) (net.dialEnd s i)
  { seconds := r.1, err := r.2 }

/-- The contents of the result channel in arrival order, for `n` workers. -/
def channelContents (net : Network) (s : DialStrategy) (n : Nat) : List connectDuration :=
  (net.arrival n).map (attemptOutcome net s)

/-- The aggregator's draining loop in `Ping`: walk the channel contents in
arrival order, returning the first error encountered, otherwise the list of
collected durations. -/
def drain : List connectDuration → Except Err (List ℚ)
  | [] => .ok []
  | o :: rest =>
    match o.err with
    | some e => .error e
    | none => (drain rest).map (fun ds => o.seconds :: ds)

/-- The tail of `Ping` after resolution: drain the channel and either
return the partial result with the first error, or attach the summary
statistics. -/
def pingCollect (net : Network) (result : PingResult) (s : DialStrategy) (n : Nat) :
    PingResult × Option Err :=
  match drain (channelContents net s n) with
  | .error e => (result, some e)
  | .ok ds => ({ result with summary := some (summarize ds) }, none)

/-- `Ping` from `tlsping.go`, for the runs that reach the collect phase.
Returns the `(PingResult, error)` pair of the Go function together with
the final state of the (pointed-to) configuration, which `Ping` may have
mutated by the `Count` defaulting.  When the defaulted count is negative
the Go function does not reach this phase at all: it panics at
`make(chan connectDuration, config.Count)` (and at `wg.Add`); that panic
is modelled by `pingRun`, the total model of a `Ping` call, and theorems
about runs with a negative count must go through `pingRun`. -/
def ping (net : Network) (addr : String) (config : Config) :
    (PingResult × Option Err) × Config :=
  match resolveAddr net addr with
  | .error e => (({}, some e), pingConfigUpdate config)
  | .ok (host, ipAddr, port) =>
    (pingCollect net
      { host := host, ipAddr := ipAddr, address := addr }
      (strategyOf (pingConfigUpdate config) host (joinHostPort ipAddr port))
      (effectiveAttempts config),
     pingConfigUpdate config)

/-- Concrete TCP-only configuration used to instantiate theorems. -/
def cfgTCP (k : Int) : Config :=
  { avoidTLSHandshake := true
    insecureSkipVerify := false
    rootCAs := none
    count := k
    ip := "" }

/-- A network where resolution succeeds at once and every timed dial
succeeds, taking one second. -/
def netOk : Network :=
  { splitHostPort := fun _ => .ok ("example.com", "443")
    lookupHost := fun _ => .ok ["93.184.216.34"]
    probe := fun _ => none
    dial := fun _ _ => none
    dialStart := fun _ _ => 0
    dialEnd := fun _ _ => 1
    arrival := fun n => List.range n }

/-- Like `netOk` but every timed dial is refused. -/
def netRefuse : Network :=
  { netOk with dial := fun _ _ => some (Err.connect "refused") }

/-- Like `netOk` but name resolution fails. -/
def netNoResolve : Network :=
  { netOk with lookupHost := fun _ => .error (Err.resolution "no such host") }

/-- Like `netOk` but every reachability probe fails. -/
def netNoProbe : Network :=
  { netOk with probe := fun _ => some (Err.connect "probe refused") }

/-- Like `netOk` but the address splits into an empty host. -/
def netEmptyHost : Network :=
  { netOk with splitHostPort := fun _ => .ok ("", "443") }

theorem drain_eq_error_of_find {l : List connectDuration} {o : connectDuration}
    (h : l.find? (fun x => x.err.isSome) = some o) :
    ∃ e, o.err = some e ∧ drain l = .error e := by
  induction l with
  | nil => simp at h
  | cons a rest ih =>
    cases ha : a.err with
    | some e =>
      rw [List.find?_cons_of_pos _ (by simp [ha])] at h
      cases h
      exact ⟨e, ha, by simp [drain, ha]⟩
    | none =>
      rw [List.find?_cons_of_neg _ (by simp [ha])] at h
      obtain ⟨e, he, hd⟩ := ih h
      exact ⟨e, he, by simp [drain, ha, hd, Except.map]⟩

theorem drain_eq_ok {l : List connectDuration}
    (h : ∀ o ∈ l, o.err = none) :
    drain l = .ok (l.map connectDuration.seconds) := by
  induction l with
  | nil => simp [drain]
  | cons a rest ih =>
    have ha : a.err = none := h a (by simp)
    have := ih (fun o ho => h o (by simp [ho]))
    simp [drain, ha, this, Except.map]

/-- Claim C8: for every zero-argument fallible operation, the connection
timer returns the elapsed wall-clock time when the operation succeeds, and
returns a zero duration together with the operation's error exactly when
the operation fails. -/
theorem timeit_contract (fres : Option Err) (startT endT : ℚ) :
    (fres = none → timeit fres startT endT = (endT - startT, none)) ∧
    (∀ e, fres = some e → timeit fres startT endT = (0, some e)) := by
  constructor
  · rintro rfl; rfl
  · rintro e rfl; rfl

theorem timeit_contract_holds :
    timeit none 2 5 = (3, none) ∧
    timeit (some (Err.connect "refused")) 2 5 = (0, some (Err.connect "refused")) := by
  constructor
  · rw [(timeit_contract none 2 5).1 rfl]; norm_num
  · exact (timeit_contract (some (Err.connect "refused")) 2 5).2 _ rfl

/-- Claim C5: if name resolution succeeds with one or more candidates but
none of them accepts the TCP probe within the timeout, `resolveAddr` still
returns successfully with the host name, the first candidate address, and
the port. -/
theorem resolveAddr_no_reachable_candidate
    (net : Network) (addr host₀ port a₀ : String) (rest : List String)
    (hsplit : net.splitHostPort addr = .ok (host₀, port))
    (hlookup : net.lookupHost (if host₀.length = 0 then "localhost" else host₀)
      = .ok (a₀ :: rest))
    (hprobe : ∀ a ∈ a₀ :: rest, (net.probe (joinHostPort a port)).isSome) :
    resolveAddr net addr =
      .ok (if host₀.length = 0 then "localhost" else host₀, a₀, port) := by
  have hfind : (a₀ :: rest).find?
      (fun a => (net.probe (joinHostPort a port)).isNone) = none := by
    rw [List.find?_eq_none]
    intro a ha
    have h := hprobe a ha
    cases hp : net.probe (joinHostPort a port) with
    | none => rw [hp] at h; simp at h
    | some e => simp [hp]
  simp [resolveAddr, hsplit, hlookup, hfind]

theorem resolveAddr_no_reachable_candidate_holds :
    resolveAddr netNoProbe "example.com:443"
      = .ok ("example.com", "93.184.216.34", "443") := by
  have h := resolveAddr_no_reachable_candidate netNoProbe "example.com:443"
    "example.com" "443" "93.184.216.34" [] rfl rfl (by decide)
  exact h

/-- Claim C6: if name resolution yields no candidate address (the host
lookup fails with a resolution error), `Ping` fails with that error without
performing any timed attempt: its outcome is the same whatever the dial,
timing and arrival oracles are. -/
theorem ping_resolution_error
    (net : Network) (addr : String) (config : Config) (host₀ port m : String)
    (hsplit : net.splitHostPort addr = .ok (host₀, port))
    (hlookup : net.lookupHost (if host₀.length = 0 then "localhost" else host₀)
      = .error (Err.resolution m)) :
    ∀ d ts te arr,
      ping { net with dial := d, dialStart := ts, dialEnd := te, arrival := arr }
          addr config
        = (({}, some (Err.resolution m)), pingConfigUpdate config) := by
  intro d ts te arr
  have hres : resolveAddr
      { net with dial := d, dialStart := ts, dialEnd := te, arrival := arr } addr
      = .error (Err.resolution m) := by
    simp [resolveAddr, hsplit, hlookup]
  simp [ping, hres]

theorem ping_resolution_error_holds :
    ping netNoResolve "example.com:443" (cfgTCP 1)
      = (({}, some (Err.resolution "no such host")), cfgTCP 1) := by
  have h := ping_resolution_error netNoResolve "example.com:443" (cfgTCP 1)
    "example.com" "443" "no such host" rfl rfl
    netNoResolve.dial netNoResolve.dialStart netNoResolve.dialEnd netNoResolve.arrival
  exact h

/-- Claim C7: for every address whose host component is empty, the resolver
substitutes `"localhost"`: whenever it returns successfully, the returned
host name equals `"localhost"`. -/
theorem resolveAddr_empty_host_localhost
    (net : Network) (addr port h i p : String)
    (hsplit : net.splitHostPort addr = .ok ("", port))
    (hres : resolveAddr net addr = .ok (h, i, p)) :
    h = "localhost" := by
  cases hlk : net.lookupHost "localhost" with
  | error e =>
    have hv : resolveAddr net addr = .error e := by
      simp [resolveAddr, hsplit, hlk]
    rw [hv] at hres
    simp at hres
  | ok addrs =>
    cases hfind : addrs.find? (fun a => (net.probe (joinHostPort a port)).isNone) with
    | some a =>
      have hv : resolveAddr net addr = .ok ("localhost", a, port) := by
        simp [resolveAddr, hsplit, hlk, hfind]
      have heq := hv.symm.trans hres
      simp at heq
      exact heq.1.symm
    | none =>
      cases addrs with
      | nil =>
        have hv : resolveAddr net addr = .error Err.indexOutOfRange := by
          simp [resolveAddr, hsplit, hlk]
        rw [hv] at hres
        simp at hres
      | cons a rest =>
        have hv : resolveAddr net addr = .ok ("localhost", a, port) := by
          simp [resolveAddr, hsplit, hlk, hfind]
        have heq := hv.symm.trans hres
        simp at heq
        exact heq.1.symm

theorem resolveAddr_empty_host_localhost_holds :
    resolveAddr netEmptyHost ":443" = .ok ("localhost", "93.184.216.34", "443")
      ∧ "localhost" = "localhost" :=
  ⟨rfl,
   resolveAddr_empty_host_localhost netEmptyHost ":443" "443"
     "localhost" "93.184.216.34" "443" rfl rfl⟩

theorem pingConfigUpdate_of_ne_zero {config : Config} (h : config.count ≠ 0) :
    pingConfigUpdate config = config := by
  simp [pingConfigUpdate, h]

/-- Claim C1: if at least one timed connection attempt fails, `Ping`
returns the first error observed by the aggregator on the result channel,
and attaches no summary statistics: nothing is summarized over a strict
subset of the `Count` durations. -/
theorem ping_first_error_no_partial_stats
    (net : Network) (addr : String) (config : Config)
    (host ipAddr port : String) (o : connectDuration)
    (hres : resolveAddr net addr = .ok (host, ipAddr, port))
    (hfind : (channelContents net
        (strategyOf (pingConfigUpdate config) host (joinHostPort ipAddr port))
        (effectiveAttempts config)).find? (fun x => x.err.isSome) = some o) :
    (ping net addr config).1.2 = o.err ∧
    (ping net addr config).1.1.summary = none := by
  obtain ⟨e, he, hd⟩ := drain_eq_error_of_find hfind
  have hping : ping net addr config =
      (({ host := host, ipAddr := ipAddr, address := addr }, some e),
        pingConfigUpdate config) := by
    simp [ping, hres, pingCollect, hd]
  rw [hping, he]
  exact ⟨rfl, rfl⟩

theorem ping_first_error_no_partial_stats_holds :
    (ping netRefuse "example.com:443" (cfgTCP 2)).1.2
        = some (Err.connect "refused") ∧
    (ping netRefuse "example.com:443" (cfgTCP 2)).1.1.summary = none :=
  ping_first_error_no_partial_stats netRefuse "example.com:443" (cfgTCP 2)
    "example.com" "93.184.216.34" "443"
    { seconds := 0, err := some (Err.connect "refused") } rfl rfl

/-- Claim C3: when all `Count` attempts succeed, the sequence of durations
handed to the summarizer has exactly `Count` elements — the channel carries
one outcome per worker, each produced and consumed exactly once (its
arrival order is a permutation of the worker indices) — and only then are
the statistics computed. -/
theorem ping_all_success_count_durations
    (net : Network) (addr : String) (config : Config)
    (host ipAddr port : String)
    (hres : resolveAddr net addr = .ok (host, ipAddr, port))
    (hcount : 0 < config.count)
    (harr : (net.arrival (effectiveAttempts config)).Perm
      (List.range (effectiveAttempts config)))
    (hok : ∀ i < effectiveAttempts config,
      net.dial (strategyOf (pingConfigUpdate config) host (joinHostPort ipAddr port)) i
        = none) :
    ∃ ds : List ℚ,
      drain (channelContents net
        (strategyOf (pingConfigUpdate config) host (joinHostPort ipAddr port))
        (effectiveAttempts config)) = .ok ds ∧
      ds.length = config.count.toNat ∧
      (ping net addr config).1.1.summary = some (summarize ds) ∧
      (ping net addr config).1.2 = none := by
  have hall : ∀ o ∈ channelContents net
      (strategyOf (pingConfigUpdate config) host (joinHostPort ipAddr port))
      (effectiveAttempts config), o.err = none := by
    intro o ho
    rw [channelContents, List.mem_map] at ho
    obtain ⟨i, hi, rfl⟩ := ho
    have hlt : i < effectiveAttempts config :=
      List.mem_range.mp (harr.subset hi)
    simp [attemptOutcome, timeit, hok i hlt]
  have hd := drain_eq_ok hall
  refine ⟨_, hd, ?_, ?_, ?_⟩
  · rw [List.length_map, channelContents, List.length_map, harr.length_eq,
      List.length_range, effectiveAttempts, pingConfigUpdate_of_ne_zero hcount.ne']
  · simp [ping, hres, pingCollect, hd]
  · simp [ping, hres, pingCollect, hd]

theorem ping_all_success_count_durations_holds :
    ∃ ds : List ℚ,
      drain (channelContents netOk
        (strategyOf (pingConfigUpdate (cfgTCP 2)) "example.com"
          (joinHostPort "93.184.216.34" "443"))
        (effectiveAttempts (cfgTCP 2))) = .ok ds ∧
      ds.length = (cfgTCP 2).count.toNat ∧
      (ping netOk "example.com:443" (cfgTCP 2)).1.1.summary = some (summarize ds) ∧
      (ping netOk "example.com:443" (cfgTCP 2)).1.2 = none :=
  ping_all_success_count_durations netOk "example.com:443" (cfgTCP 2)
    "example.com" "93.184.216.34" "443" rfl (by decide)
    (List.Perm.refl _) (by decide)

/-- Counterexample to claim C4: `Ping` does mutate the configuration it is
given when its count is zero — the count field is overwritten with 1. -/
theorem ping_mutates_zero_count_config :
    (ping netOk "example.com:443" (cfgTCP 0)).2 ≠ cfgTCP 0 := by
  intro h
  have h1 : (1 : Int) = 0 := congrArg Config.count h
  exact one_ne_zero h1

/-- Claim C4 amended: `Ping` modifies no field of the configuration for
every address and every configuration whose count is nonzero; the sole
mutation it ever performs is defaulting a zero count to 1. -/
theorem ping_preserves_config_of_ne_zero
    (net : Network) (addr : String) (config : Config)
    (h : config.count ≠ 0) :
    (ping net addr config).2 = config := by
  cases hres : resolveAddr net addr with
  | error e => simp [ping, hres, pingConfigUpdate_of_ne_zero h]
  | ok t =>
    obtain ⟨host, ipAddr, port⟩ := t
    simp [ping, hres, pingConfigUpdate_of_ne_zero h]

theorem ping_preserves_config_of_ne_zero_holds :
    (ping netOk "example.com:443" (cfgTCP 2)).2 = cfgTCP 2 :=
  ping_preserves_config_of_ne_zero netOk "example.com:443" (cfgTCP 2) (by decide)

theorem perm_minimum_eq {l l' : List ℚ} (h : l.Perm l') :
    l.minimum = l'.minimum :=
  le_antisymm
    (List.le_minimum_of_forall_le
      (fun _ ha => List.minimum_le_of_mem' (h.mem_iff.mpr ha)))
    (List.le_minimum_of_forall_le
      (fun _ ha => List.minimum_le_of_mem' (h.mem_iff.mp ha)))

theorem perm_maximum_eq {l l' : List ℚ} (h : l.Perm l') :
    l.maximum = l'.maximum :=
  le_antisymm
    (List.maximum_le_of_forall_le
      (fun _ ha => List.le_maximum_of_mem' (h.mem_iff.mp ha)))
    (List.maximum_le_of_forall_le
      (fun _ ha => List.le_maximum_of_mem' (h.mem_iff.mpr ha)))

/-- Claim C9: the summarizer is order-independent — for every non-empty
sequence of durations and every permutation of it, minimum, maximum,
average and population variance (hence the standard deviation, its square
root) are identical on the original and the permuted sequences. -/
theorem summarize_perm_invariant
    (l l' : List ℚ) (_hne : l ≠ []) (h : l.Perm l') :
    summarize l = summarize l' := by
  have hsum : l.sum = l'.sum := h.sum_eq
  have hlen : l.length = l'.length := h.length_eq
  simp only [summarize, Summary.mk.injEq]
  refine ⟨perm_minimum_eq h ▸ rfl, perm_maximum_eq h ▸ rfl, by rw [hsum, hlen], ?_⟩
  rw [hsum, hlen,
    (h.map (fun x => (x - l'.sum / (l'.length : ℚ)) ^ 2)).sum_eq]

theorem summarize_perm_invariant_holds :
    summarize [1, 2] = summarize [2, 1] :=
  summarize_perm_invariant [1, 2] [2, 1] (by decide) (by decide)

theorem pingConfigUpdate_ip (config : Config) (s : String) :
    pingConfigUpdate { config with ip := s }
      = { pingConfigUpdate config with ip := s } := by
  by_cases h : config.count = 0 <;> simp [pingConfigUpdate, h]

/-- Claim C10: the `Ip` field of the configuration has no effect on
`Ping`: two configurations that agree on every field except `Ip` select
the same dial strategy, launch the same number of workers, and produce the
same `(result, error)` pair on every network oracle and address (the
resolution does not read the configuration at all). -/
theorem ping_ignores_ip
    (net : Network) (addr : String) (config : Config) (s : String) :
    (∀ host target, strategyOf (pingConfigUpdate { config with ip := s }) host target
        = strategyOf (pingConfigUpdate config) host target) ∧
    effectiveAttempts { config with ip := s } = effectiveAttempts config ∧
    (ping net addr { config with ip := s }).1 = (ping net addr config).1 := by
  refine ⟨?_, ?_, ?_⟩
  · intro host target
    rw [pingConfigUpdate_ip]
    simp [strategyOf]
  · rw [effectiveAttempts, pingConfigUpdate_ip, effectiveAttempts]
  · cases hres : resolveAddr net addr with
    | error e => simp [ping, hres]
    | ok t =>
      obtain ⟨host, ipAddr, port⟩ := t
      simp [ping, hres, pingConfigUpdate_ip, strategyOf, effectiveAttempts]

end Tlsping
